import Mathlib

/-!
Shallow embedding of the store-monitoring report engine
(src/app/time_utils.py, src/app/report.py).

Modelling conventions:
- Instants (Python datetime values) are integers counting milliseconds; the
  source works at microsecond resolution but every constant it manipulates is
  a whole millisecond (the only sub-second constant is microsecond=999000).
- Durations returned by total_seconds() are modelled in milliseconds as well;
  the factor 1000 is applied where the code divides seconds into minutes or
  hours, so reported metrics agree with the source numerically.
- IANA timezones are modelled as fixed UTC offsets (a function from instants
  to instants given by adding the offset); daylight-saving transitions are
  outside the scope of the claims checked here.
- Python float arithmetic is modelled with exact rationals at the reporting
  boundary; round(x, 2) is modelled as round-half-to-even at two decimals.
-/

namespace StoreMonitoring

/-- Half-open UTC time span, from time_utils.Interval. The source field named
end is called stop here because end is a Lean keyword. -/
structure Interval where
  start : ℤ
  stop : ℤ
deriving DecidableEq

/-- Interval.clamp from time_utils.py lines 14-19: intersect with the window
and drop the result when it is empty. -/
def Interval.clamp (iv : Interval) (windowStart windowEnd : ℤ) : Option Interval :=
  let s := max iv.start windowStart
  let e := min iv.stop windowEnd
  if s ≥ e then none else some ⟨s, e⟩

/-- A timezone, modelled as a fixed offset (milliseconds east of UTC). -/
structure Tz where
  offset : ℤ
deriving DecidableEq

/-- astimezone(tz) applied to a UTC instant: the local wall-clock value. -/
def Tz.toLocal (tz : Tz) (u : ℤ) : ℤ := u + tz.offset

/-- astimezone(UTC).replace(tzinfo=None) applied to a local wall-clock value. -/
def Tz.toUtc (tz : Tz) (l : ℤ) : ℤ := l - tz.offset

/-- Floor division on rationals (used only to model Python round at the
reporting boundary; q.den is always positive so fdiv is the real floor). -/
def ratFloor (q : ℚ) : ℤ := Int.fdiv q.num q.den

/-- replace(hour=0, minute=0, second=0, microsecond=0) on a local wall-clock
value: its local midnight. -/
def floorLocalMidnight (l : ℤ) : ℤ := 86400000 * Int.fdiv l 86400000

/-- datetime.weekday() of a local midnight: 0 = Monday. Day 0 of the epoch
(1970-01-01) was a Thursday, hence the +3. -/
def weekdayOf (m : ℤ) : ℤ := (Int.fdiv m 86400000 + 3) % 7

/-- daterange_days from time_utils.py lines 25-33: local midnights of every
day touching [start, end), walked one day at a time while the current local
midnight does not exceed the local image of the range end. The while loop is
rendered by its closed form: it yields curLocal + i * day for
i = 0 .. floor((endLocal - curLocal) / day). -/
def daterange_days (startUtc endUtc : ℤ) (tz : Tz) : List ℤ :=
  let curLocal := floorLocalMidnight (tz.toLocal startUtc)
  let endLocal := tz.toLocal endUtc
  if curLocal ≤ endLocal then
    (List.range ((Int.fdiv (endLocal - curLocal) 86400000).toNat + 1)).map
      (fun i : ℕ => curLocal + (i : ℤ) * 86400000)
  else []

/-- local_times_to_utc_intervals from time_utils.py lines 36-66. Spans are
pairs of local times of day in milliseconds. A span whose end does not exceed
its start wraps past midnight and is split in two pieces; the first piece
ends at hour=23, minute=59, second=59, microsecond=999000 after local
midnight, that is at 86399999 ms. -/
def local_times_to_utc_intervals (dayLocalMidnight : ℤ) (localSpans : List (ℤ × ℤ))
    (tz : Tz) : List Interval :=
  localSpans.flatMap (fun span =>
    let startDtLocal := dayLocalMidnight + span.1
    let endDtLocal := dayLocalMidnight + span.2
    if endDtLocal ≤ startDtLocal then
      [⟨tz.toUtc startDtLocal, tz.toUtc (dayLocalMidnight + 86399999)⟩,
       ⟨tz.toUtc (dayLocalMidnight + 86400000), tz.toUtc (endDtLocal + 86400000)⟩]
    else
      [⟨tz.toUtc startDtLocal, tz.toUtc endDtLocal⟩])

/-- Resolved per-store configuration, from report.StoreConfig. The weekday
mapping is total with [] standing for an absent key, which the source treats
identically (if not spans or len(spans) == 0). -/
structure StoreConfig where
  timezone : Tz
  business_hours_by_dow : ℤ → List (ℤ × ℤ)

/-- business_intervals_utc from report.py lines 62-79: for each local day in
range look up the weekday spans, substituting the all-day span
(00:00:00, 23:59:59) when none are configured, convert to UTC and clamp. -/
def business_intervals_utc (startUtc endUtc : ℤ) (config : StoreConfig) : List Interval :=
  (daterange_days startUtc endUtc config.timezone).flatMap (fun dayMidnightLocal =>
    let dayDow := weekdayOf dayMidnightLocal
    let spans0 := config.business_hours_by_dow dayDow
    let spans := if spans0 = [] then [((0 : ℤ), (86399000 : ℤ))] else spans0
    (local_times_to_utc_intervals dayMidnightLocal spans config.timezone).filterMap
      (fun iv => iv.clamp startUtc endUtc))

/-- The seeding loop of interpolate_status (report.py lines 97-104): scan
observations while their timestamp is at most the window start, carrying the
status of the last one seen; stop at the first later observation. -/
def seedStatus (s : ℤ) : List (ℤ × String) → String → String
  | [], cur => cur
  | p :: rest, cur => if p.1 ≤ s then seedStatus s rest p.2 else cur

/-- Loop state of the interpolation walk: accumulated uptime and downtime in
milliseconds, the current marker time and the carried status. -/
structure InterpState where
  uptime : ℤ
  downtime : ℤ
  currentTime : ℤ
  currentStatus : String
deriving DecidableEq

/-- The walk of interpolate_status over the observations strictly inside the
window (report.py lines 106-115): charge the elapsed time since the marker to
the bucket matching the carried status, then move marker and status. -/
def statusWalk : List (ℤ × String) → InterpState → InterpState
  | [], st => st
  | p :: rest, st =>
    let delta := p.1 - st.currentTime
    if st.currentStatus = "active" then
      statusWalk rest ⟨st.uptime + delta, st.downtime, p.1, p.2⟩
    else
      statusWalk rest ⟨st.uptime, st.downtime + delta, p.1, p.2⟩

/-- The tail step of interpolate_status (report.py lines 117-123): charge the
remaining time up to the window end, when positive, to the bucket of the
final carried status. -/
def interpTail (st : InterpState) (windowEnd : ℤ) : ℤ × ℤ :=
  let deltaTail := windowEnd - st.currentTime
  if deltaTail > 0 then
    if st.currentStatus = "active" then (st.uptime + deltaTail, st.downtime)
    else (st.uptime, st.downtime + deltaTail)
  else (st.uptime, st.downtime)

/-- interpolate_status from report.py lines 82-125 (source name
_interpolate_status): uptime and downtime attributable to the window, in
milliseconds. After the seeding loop the marker always equals window.start,
since it is initialised there and only ever rewritten to that same value. -/
def interpolate_status (observations : List (ℤ × String)) (window : Interval) : ℤ × ℤ :=
  match observations with
  | [] => (0, 0)
  | first :: _ =>
    let seeded := seedStatus window.start observations first.2
    let allPoints := observations.filter
      (fun p => decide (window.start < p.1) && decide (p.1 < window.stop))
    interpTail (statusWalk allPoints ⟨0, 0, window.start, seeded⟩) window.stop

/-- Accumulation loop of compute_store_metrics for one window (report.py
lines 152-161): sum interpolated uptime and downtime over every business
interval of the window, handing the same observation series to each call. -/
def windowTotals (observations : List (ℤ × String)) (w : Interval)
    (config : StoreConfig) : ℤ × ℤ :=
  (business_intervals_utc w.start w.stop config).foldl
    (fun acc iv =>
      let r := interpolate_status observations iv
      (acc.1 + r.1, acc.2 + r.2))
    (0, 0)

/-- The six per-store numbers before rounding, from the metrics dictionary of
compute_store_metrics (report.py lines 163-171). -/
structure Metrics where
  uptime_last_hour_min : ℚ
  downtime_last_hour_min : ℚ
  uptime_last_day_hr : ℚ
  downtime_last_day_hr : ℚ
  uptime_last_week_hr : ℚ
  downtime_last_week_hr : ℚ
deriving DecidableEq

/-- The per-window computation of compute_store_metrics applied to a given
observation series: totals accumulate in (milli)seconds and are divided into
minutes for the hour window and hours for the day and week windows. Also the
variant the specification describes, fed the entire series. -/
def computeMetricsFromSeries (observations : List (ℤ × String)) (nowUtc : ℤ)
    (config : StoreConfig) : Metrics :=
  let hour := windowTotals observations ⟨nowUtc - 3600000, nowUtc⟩ config
  let day := windowTotals observations ⟨nowUtc - 86400000, nowUtc⟩ config
  let week := windowTotals observations ⟨nowUtc - 604800000, nowUtc⟩ config
  { uptime_last_hour_min := (hour.1 : ℚ) / 1000 / 60
    downtime_last_hour_min := (hour.2 : ℚ) / 1000 / 60
    uptime_last_day_hr := (day.1 : ℚ) / 1000 / 3600
    downtime_last_day_hr := (day.2 : ℚ) / 1000 / 3600
    uptime_last_week_hr := (week.1 : ℚ) / 1000 / 3600
    downtime_last_week_hr := (week.2 : ℚ) / 1000 / 3600 }

/-- The observation fetch of compute_store_metrics (report.py lines 140-149):
keep observations between two hours before the week window and two hours
after now; the input list is assumed sorted so the SQL ordering is the
identity here. -/
def fetchObservations (observations : List (ℤ × String)) (nowUtc : ℤ) : List (ℤ × String) :=
  observations.filter (fun p =>
    decide (nowUtc - 604800000 - 7200000 ≤ p.1) && decide (p.1 ≤ nowUtc + 7200000))

/-- compute_store_metrics from report.py lines 128-173 (source name
_compute_store_metrics): fetch the window-superset of the observation series
once, then compute all three windows from it. -/
def compute_store_metrics (observations : List (ℤ × String)) (nowUtc : ℤ)
    (config : StoreConfig) : Metrics :=
  computeMetricsFromSeries (fetchObservations observations nowUtc) nowUtc config

/-- Round to the nearest integer, ties to even, as Python round does. -/
def roundHalfEven (y : ℚ) : ℤ :=
  let f := ratFloor y
  let r := y - (f : ℚ)
  if r < 1/2 then f
  else if 1/2 < r then f + 1
  else if f % 2 = 0 then f else f + 1

/-- round(x, 2) from generate_report (report.py lines 186-191). -/
def round2 (x : ℚ) : ℚ := (roundHalfEven (x * 100) : ℚ) / 100

/-- One output row of the report CSV (report.py lines 183-193). -/
structure Row where
  store_id : String
  uptime_last_hour : ℚ
  uptime_last_day : ℚ
  uptime_last_week : ℚ
  downtime_last_hour : ℚ
  downtime_last_day : ℚ
  downtime_last_week : ℚ
deriving DecidableEq

/-- Row construction in generate_report: every metric is rounded to two
decimal places at this reporting boundary. -/
def makeRow (sid : String) (m : Metrics) : Row :=
  { store_id := sid
    uptime_last_hour := round2 m.uptime_last_hour_min
    uptime_last_day := round2 m.uptime_last_day_hr
    uptime_last_week := round2 m.uptime_last_week_hr
    downtime_last_hour := round2 m.downtime_last_hour_min
    downtime_last_day := round2 m.downtime_last_day_hr
    downtime_last_week := round2 m.downtime_last_week_hr }

/-- One row of the observations table. -/
structure ObsRow where
  store_id : String
  timestamp_utc : ℤ
  status : String
deriving DecidableEq

/-- One row of the business-hours table. -/
structure BhRow where
  store_id : String
  day_of_week : ℤ
  start_time_local : ℤ
  end_time_local : ℤ
deriving DecidableEq

/-- The session.query(func.max(...)) of get_reference_now: maximum timestamp
over the whole observations table, if any. -/
def maxTimestamp : List ℤ → Option ℤ
  | [] => none
  | t :: rest =>
    match maxTimestamp rest with
    | none => some t
    | some m => some (max t m)

/-- get_reference_now from report.py lines 27-33 (source name
_get_reference_now): the maximum observation timestamp across all stores, or
the real current UTC time when there are no observations at all. -/
def getReferenceNow (timestamps : List ℤ) (realNowUtc : ℤ) : ℤ :=
  (maxTimestamp timestamps).getD realNowUtc

/-- The timezone dictionary loop of load_store_configs (report.py lines
38-43): per row, resolve the IANA name and fall back to the default timezone
when resolution fails; later rows overwrite earlier ones. -/
def buildTzMap (resolve : String → Option Tz) (defaultTz : Tz)
    (tzRows : List (String × String)) : String → Option Tz :=
  tzRows.foldl
    (fun m row => fun q =>
      if q = row.1 then some ((resolve row.2).getD defaultTz) else m q)
    (fun _ => none)

/-- The nested defaultdict of business hours in load_store_configs (report.py
lines 46-48): append each row span under its store and weekday. -/
def buildBhMap (bhRows : List BhRow) : String → ℤ → List (ℤ × ℤ) :=
  bhRows.foldl
    (fun m row => fun sid dow =>
      if sid = row.store_id ∧ dow = row.day_of_week then
        m sid dow ++ [(row.start_time_local, row.end_time_local)]
      else m sid dow)
    (fun _ _ => [])

/-- The store-id set of load_store_configs (report.py lines 52-55): every
store appearing in the observations, timezone or business-hour tables. -/
def storeIdsOf (obs : List ObsRow) (tzRows : List (String × String))
    (bhRows : List BhRow) : List String :=
  (obs.map (fun r => r.store_id) ++ tzRows.map (fun r => r.1)
    ++ bhRows.map (fun r => r.store_id)).dedup

/-- load_store_configs from report.py lines 36-59 (source name
_load_store_configs): one configuration per eligible store, defaulting the
timezone and leaving the weekday mapping empty when tables lack the store. -/
def loadStoreConfigs (obs : List ObsRow) (tzRows : List (String × String))
    (bhRows : List BhRow) (resolve : String → Option Tz) (defaultTz : Tz) :
    List (String × StoreConfig) :=
  (storeIdsOf obs tzRows bhRows).map (fun sid =>
    (sid, { timezone := (buildTzMap resolve defaultTz tzRows sid).getD defaultTz
            business_hours_by_dow := fun d => buildBhMap bhRows sid d }))

/-- Insertion step of the timestamp sort used to model ORDER BY. -/
def insertByTs (p : ℤ × String) : List (ℤ × String) → List (ℤ × String)
  | [] => [p]
  | q :: rest => if p.1 ≤ q.1 then p :: q :: rest else q :: insertByTs p rest

/-- Insertion sort by timestamp, modelling the ORDER BY timestamp_utc ASC of
the per-store observation query. -/
def sortByTs : List (ℤ × String) → List (ℤ × String)
  | [] => []
  | p :: rest => insertByTs p (sortByTs rest)

/-- The per-store observation series handed to compute_store_metrics: the
store's rows, sorted by timestamp. -/
def obsForStore (obs : List ObsRow) (sid : String) : List (ℤ × String) :=
  sortByTs ((obs.filter (fun r => decide (r.store_id = sid))).map
    (fun r => (r.timestamp_utc, r.status)))

/-- generate_report from report.py lines 176-193, up to the CSV sink: the
reference now is computed once, then one row is produced per configured
store. -/
def generateReportRows (obs : List ObsRow) (tzRows : List (String × String))
    (bhRows : List BhRow) (resolve : String → Option Tz) (defaultTz : Tz)
    (realNowUtc : ℤ) : List Row :=
  let nowUtc := getReferenceNow (obs.map (fun r => r.timestamp_utc)) realNowUtc
  (loadStoreConfigs obs tzRows bhRows resolve defaultTz).map (fun sc =>
    makeRow sc.1 (compute_store_metrics (obsForStore obs sc.1) nowUtc sc.2))

/-- Combined length of a list of intervals, in milliseconds. -/
def durationMs (l : List Interval) : ℤ := (l.map (fun iv => iv.stop - iv.start)).sum

/-- Unfolding of one walk step. -/
lemma statusWalk_cons (p : ℤ × String) (rest : List (ℤ × String)) (st : InterpState) :
    statusWalk (p :: rest) st
      = if st.currentStatus = "active" then
          statusWalk rest ⟨st.uptime + (p.1 - st.currentTime), st.downtime, p.1, p.2⟩
        else
          statusWalk rest ⟨st.uptime, st.downtime + (p.1 - st.currentTime), p.1, p.2⟩ := rfl

/-- Unfolding of one seeding step. -/
lemma seedStatus_cons (s : ℤ) (p : ℤ × String) (rest : List (ℤ × String))
    (cur : String) :
    seedStatus s (p :: rest) cur
      = if p.1 ≤ s then seedStatus s rest p.2 else cur := rfl

/-- Unfolding of interpolate_status on a non-empty series. -/
lemma interpolate_status_cons (first : ℤ × String) (rest : List (ℤ × String))
    (w : Interval) :
    interpolate_status (first :: rest) w
      = interpTail
          (statusWalk
            ((first :: rest).filter
              (fun p => decide (w.start < p.1) && decide (p.1 < w.stop)))
            ⟨0, 0, w.start, seedStatus w.start (first :: rest) first.2⟩)
          w.stop := rfl

/-- The walk conserves time: accumulated uptime plus downtime grows by
exactly the advance of the marker. -/
lemma statusWalk_sum (pts : List (ℤ × String)) : ∀ st : InterpState,
    (statusWalk pts st).uptime + (statusWalk pts st).downtime
      = st.uptime + st.downtime + ((statusWalk pts st).currentTime - st.currentTime) := by
  induction pts with
  | nil => intro st; simp [statusWalk]
  | cons p rest ih =>
    intro st
    rw [statusWalk_cons]
    by_cases h : st.currentStatus = "active"
    · rw [if_pos h, ih]; simp; ring
    · rw [if_neg h, ih]; simp; ring

/-- The final marker of the walk is the last walked timestamp, or the initial
marker when there is nothing to walk. -/
lemma statusWalk_time (pts : List (ℤ × String)) : ∀ st : InterpState,
    (statusWalk pts st).currentTime = ((pts.getLast?).map Prod.fst).getD st.currentTime := by
  induction pts with
  | nil => intro st; simp [statusWalk]
  | cons p rest ih =>
    intro st
    rw [statusWalk_cons]
    by_cases h : st.currentStatus = "active"
    · rw [if_pos h, ih]
      cases hq : rest.getLast? <;> simp [List.getLast?_cons, hq]
    · rw [if_neg h, ih]
      cases hq : rest.getLast? <;> simp [List.getLast?_cons, hq]

/-- The final carried status of the walk is the initial one or one of the
walked statuses. -/
lemma statusWalk_status (pts : List (ℤ × String)) : ∀ st : InterpState,
    (statusWalk pts st).currentStatus = st.currentStatus
      ∨ (statusWalk pts st).currentStatus ∈ pts.map Prod.snd := by
  induction pts with
  | nil => intro st; simp [statusWalk]
  | cons p rest ih =>
    intro st
    rw [statusWalk_cons]
    by_cases h : st.currentStatus = "active"
    · rw [if_pos h]
      rcases ih ⟨st.uptime + (p.1 - st.currentTime), st.downtime, p.1, p.2⟩ with h1 | h1
      · right; rw [h1]; simp
      · right; simp only [List.map_cons, List.mem_cons]; right; exact h1
    · rw [if_neg h]
      rcases ih ⟨st.uptime, st.downtime + (p.1 - st.currentTime), p.1, p.2⟩ with h1 | h1
      · right; rw [h1]; simp
      · right; simp only [List.map_cons, List.mem_cons]; right; exact h1

/-- Over a timestamp-sorted walk starting at a marker no later than every
walked point, both accumulated buckets stay non-negative. -/
lemma statusWalk_nonneg (pts : List (ℤ × String)) : ∀ st : InterpState,
    List.Pairwise (fun a b => a.1 ≤ b.1) pts →
    (∀ p ∈ pts, st.currentTime ≤ p.1) →
    0 ≤ st.uptime → 0 ≤ st.downtime →
    0 ≤ (statusWalk pts st).uptime ∧ 0 ≤ (statusWalk pts st).downtime := by
  induction pts with
  | nil => intro st _ _ hu hd; exact ⟨hu, hd⟩
  | cons p rest ih =>
    intro st hsorted hle hu hd
    have hdelta : 0 ≤ p.1 - st.currentTime := by
      have := hle p (List.mem_cons_self p rest)
      omega
    have hrest : ∀ q ∈ rest, p.1 ≤ q.1 := fun q hq =>
      (List.pairwise_cons.mp hsorted).1 q hq
    rw [statusWalk_cons]
    by_cases h : st.currentStatus = "active"
    · rw [if_pos h]
      refine ih _ (List.pairwise_cons.mp hsorted).2 hrest ?_ hd
      show (0 : ℤ) ≤ st.uptime + (p.1 - st.currentTime)
      omega
    · rw [if_neg h]
      refine ih _ (List.pairwise_cons.mp hsorted).2 hrest hu ?_
      show (0 : ℤ) ≤ st.downtime + (p.1 - st.currentTime)
      omega

/-- When the carried status starts non-active and no walked status is
active, the walk never touches the uptime bucket and finishes non-active. -/
lemma statusWalk_never_active (pts : List (ℤ × String)) : ∀ st : InterpState,
    st.currentStatus ≠ "active" →
    (∀ p ∈ pts, p.2 ≠ "active") →
    (statusWalk pts st).uptime = st.uptime
      ∧ (statusWalk pts st).currentStatus ≠ "active" := by
  induction pts with
  | nil => intro st h _; exact ⟨rfl, h⟩
  | cons p rest ih =>
    intro st h hall
    rw [statusWalk_cons, if_neg h]
    exact ih _ (hall p (List.mem_cons_self p rest))
      (fun q hq => hall q (List.mem_cons.mpr (Or.inr hq)))

/-- The seeded status is the initial one or the status of some observation. -/
lemma seedStatus_mem (s : ℤ) (l : List (ℤ × String)) : ∀ cur : String,
    seedStatus s l cur = cur ∨ seedStatus s l cur ∈ l.map Prod.snd := by
  induction l with
  | nil => intro cur; left; rfl
  | cons p rest ih =>
    intro cur
    rw [seedStatus_cons]
    by_cases h : p.1 ≤ s
    · rw [if_pos h]
      rcases ih p.2 with h1 | h1
      · right; rw [h1]; simp
      · right; simp only [List.map_cons, List.mem_cons]; right; exact h1
    · rw [if_neg h]; left; rfl

/-- On a timestamp-sorted series the seeding loop returns the status of the
last observation with timestamp at most the window start, falling back to
the initial status when there is none. -/
lemma seedStatus_eq_filter_last (s : ℤ) (l : List (ℤ × String)) : ∀ cur : String,
    List.Pairwise (fun a b => a.1 ≤ b.1) l →
    seedStatus s l cur
      = (((l.filter (fun p => decide (p.1 ≤ s))).getLast?).map Prod.snd).getD cur := by
  induction l with
  | nil => intro cur _; rfl
  | cons p rest ih =>
    intro cur hsorted
    rw [seedStatus_cons]
    by_cases h : p.1 ≤ s
    · rw [if_pos h, ih p.2 (List.pairwise_cons.mp hsorted).2]
      have hfilter : (p :: rest).filter (fun p => decide (p.1 ≤ s))
          = p :: rest.filter (fun p => decide (p.1 ≤ s)) := by
        simp [List.filter_cons, h]
      rw [hfilter, List.getLast?_cons]
      cases hq : (rest.filter (fun p => decide (p.1 ≤ s))).getLast? <;> simp [hq]
    · rw [if_neg h]
      have hnone : (p :: rest).filter (fun p => decide (p.1 ≤ s)) = [] := by
        refine List.filter_eq_nil_iff.mpr ?_
        intro q hq
        simp only [decide_eq_true_eq]
        rcases List.mem_cons.mp hq with hq1 | hq1
        · rw [hq1]; exact h
        · have hple := (List.pairwise_cons.mp hsorted).1 q hq1
          omega
      rw [hnone]; rfl

/-- Bounds carried by membership in the strict in-window filter of
interpolate_status. -/
lemma mem_window_filter {w : Interval} {observations : List (ℤ × String)}
    {p : ℤ × String}
    (hp : p ∈ observations.filter
      (fun p => decide (w.start < p.1) && decide (p.1 < w.stop))) :
    p ∈ observations ∧ w.start < p.1 ∧ p.1 < w.stop := by
  have h := List.mem_filter.mp hp
  have h2 := h.2
  simp only [Bool.and_eq_true, decide_eq_true_eq] at h2
  exact ⟨h.1, h2.1, h2.2⟩

/-- C1 (amended): on a non-empty timestamp-sorted series and a non-degenerate
window, interpolate_status splits the window duration exactly into two
non-negative buckets. -/
theorem C1_interpolate_partitions_window (observations : List (ℤ × String))
    (w : Interval) (hne : observations ≠ []) (hw : w.start < w.stop)
    (hsorted : List.Pairwise (fun a b => a.1 ≤ b.1) observations) :
    (interpolate_status observations w).1 + (interpolate_status observations w).2
        = w.stop - w.start
      ∧ 0 ≤ (interpolate_status observations w).1
      ∧ 0 ≤ (interpolate_status observations w).2 := by
  match observations, hne with
  | first :: rest, _ =>
    rw [interpolate_status_cons]
    set pts := (first :: rest).filter
      (fun p => decide (w.start < p.1) && decide (p.1 < w.stop)) with hpts
    set st := statusWalk pts ⟨0, 0, w.start, seedStatus w.start (first :: rest) first.2⟩
      with hst
    have hptsSorted : List.Pairwise (fun (a b : ℤ × String) => a.1 ≤ b.1) pts :=
      List.Pairwise.sublist (List.filter_sublist _) hsorted
    have hsum : st.uptime + st.downtime = st.currentTime - w.start := by
      rw [hst, statusWalk_sum]; simp
    have hnn : 0 ≤ st.uptime ∧ 0 ≤ st.downtime := by
      rw [hst]
      refine statusWalk_nonneg _ _ hptsSorted ?_ le_rfl le_rfl
      intro p hp
      exact le_of_lt (mem_window_filter (hpts ▸ hp)).2.1
    have hct : st.currentTime < w.stop := by
      rw [hst, statusWalk_time]
      cases hq : pts.getLast? with
      | none => simpa using hw
      | some q =>
        have hqmem : q ∈ pts := List.mem_of_mem_getLast? hq
        have := (mem_window_filter (hpts ▸ hqmem)).2.2
        simpa [hq] using this
    have htail : w.stop - st.currentTime > 0 := by omega
    rw [interpTail, if_pos htail]
    by_cases hact : st.currentStatus = "active"
    · rw [if_pos hact]
      exact ⟨by simp only []; omega, by simp only []; omega, hnn.2⟩
    · rw [if_neg hact]
      exact ⟨by simp only []; omega, hnn.1, by simp only []; omega⟩

/-- C1 counterexample: for the empty observation series and the
non-degenerate window from 0 to 10 the two returned buckets sum to 0, not to
the window duration. -/
theorem C1_counterexample_empty_series :
    ¬ ((interpolate_status [] ⟨0, 10⟩).1 + (interpolate_status [] ⟨0, 10⟩).2
        = (10 : ℤ) - 0) := by decide

/-- Witness instantiating C1_interpolate_partitions_window at a concrete
sorted non-empty series. -/
theorem C1_witness :
    (interpolate_status [((5 : ℤ), "active")] ⟨0, 10⟩).1
        + (interpolate_status [((5 : ℤ), "active")] ⟨0, 10⟩).2 = (10 : ℤ) - 0
      ∧ 0 ≤ (interpolate_status [((5 : ℤ), "active")] ⟨0, 10⟩).1
      ∧ 0 ≤ (interpolate_status [((5 : ℤ), "active")] ⟨0, 10⟩).2 :=
  C1_interpolate_partitions_window [((5 : ℤ), "active")] ⟨0, 10⟩
    (by decide) (by decide) (by decide)

/-- C2: on a sorted non-empty series the carried status seeded at the window
start s is the status of the last observation with timestamp at most s, or
the status of the very first observation when no timestamp is at most s. -/
theorem C2_seed_carried_status (s : ℤ) (first : ℤ × String)
    (rest : List (ℤ × String))
    (hsorted : List.Pairwise (fun a b => a.1 ≤ b.1) (first :: rest)) :
    seedStatus s (first :: rest) first.2
      = ((((first :: rest).filter (fun p => decide (p.1 ≤ s))).getLast?).map
          Prod.snd).getD first.2 :=
  seedStatus_eq_filter_last s (first :: rest) first.2 hsorted

/-- Witness instantiating C2_seed_carried_status: at s = 10 the carried
status is that of the last observation at or before 10, namely the one at
time 7. -/
theorem C2_witness :
    seedStatus 10 [((5 : ℤ), "active"), (7, "inactive"), (20, "active")]
        "active"
      = (((([((5 : ℤ), "active"), (7, "inactive"), (20, "active")]).filter
          (fun p => decide (p.1 ≤ 10))).getLast?).map Prod.snd).getD "active" :=
  C2_seed_carried_status 10 ((5 : ℤ), "active") [(7, "inactive"), (20, "active")]
    (by decide)

/-- C10: when no status in the series is the exact string "active" - whether
"inactive" or any unexpected value - the whole window is charged to
downtime and uptime stays zero. -/
theorem C10_nonactive_counts_down (observations : List (ℤ × String))
    (w : Interval) (hne : observations ≠ []) (hw : w.start < w.stop)
    (hstatus : ∀ p ∈ observations, p.2 ≠ "active") :
    interpolate_status observations w = (0, w.stop - w.start) := by
  match observations, hne with
  | first :: rest, _ =>
    rw [interpolate_status_cons]
    set pts := (first :: rest).filter
      (fun p => decide (w.start < p.1) && decide (p.1 < w.stop)) with hpts
    have hseed : seedStatus w.start (first :: rest) first.2 ≠ "active" := by
      rcases seedStatus_mem w.start (first :: rest) first.2 with h | h
      · rw [h]; exact hstatus first (List.mem_cons_self first rest)
      · rcases List.mem_map.mp h with ⟨p, hp, hp2⟩
        rw [← hp2]; exact hstatus p hp
    set st := statusWalk pts ⟨0, 0, w.start, seedStatus w.start (first :: rest) first.2⟩
      with hst
    have hwalk : st.uptime = (0 : ℤ) ∧ st.currentStatus ≠ "active" := by
      rw [hst]
      exact statusWalk_never_active _ _ hseed
        (fun p hp => hstatus p (mem_window_filter (hpts ▸ hp)).1)
    have hsum : st.uptime + st.downtime = st.currentTime - w.start := by
      rw [hst, statusWalk_sum]; simp
    have hct : st.currentTime < w.stop := by
      rw [hst, statusWalk_time]
      cases hq : pts.getLast? with
      | none => simpa using hw
      | some q =>
        have hqmem : q ∈ pts := List.mem_of_mem_getLast? hq
        have := (mem_window_filter (hpts ▸ hqmem)).2.2
        simpa [hq] using this
    have htail : w.stop - st.currentTime > 0 := by omega
    rw [interpTail, if_pos htail, if_neg hwalk.2]
    have h1 : st.uptime = (0 : ℤ) := hwalk.1
    have h2 : st.downtime + (w.stop - st.currentTime) = w.stop - w.start := by omega
    rw [h1, h2]

/-- Witness instantiating C10_nonactive_counts_down on a series holding an
"inactive" status and an unexpected status string. -/
theorem C10_witness :
    interpolate_status [((5 : ℤ), "inactive"), (7, "weird")] ⟨0, 10⟩
      = (0, (10 : ℤ) - 0) :=
  C10_nonactive_counts_down [((5 : ℤ), "inactive"), (7, "weird")] ⟨0, 10⟩
    (by decide) (by decide) (by decide)

/-- C3 counterexample: for the midnight-crossing span 22:00-02:00 on the epoch
day in the zero-offset timezone the emitted intervals are not the claimed
pair ending at 23:59:59 (86399000 ms); the first piece in fact ends at
23:59:59.999 (86399999 ms). -/
theorem C3_counterexample_split_end :
    local_times_to_utc_intervals 0 [((79200000 : ℤ), (7200000 : ℤ))] ⟨0⟩
      ≠ [⟨79200000, 86399000⟩, ⟨86400000, 93600000⟩] := by decide

/-- C3 (amended): a span whose end does not exceed its start is emitted as
exactly two local intervals, [day+start, day+23:59:59.999] and
[next-day-midnight, next-day+end); the first piece ends 999 milliseconds
after 23:59:59, that is one millisecond short of true midnight. -/
theorem C3_midnight_split (dayLocalMidnight s0 e0 : ℤ) (tz : Tz)
    (h : dayLocalMidnight + e0 ≤ dayLocalMidnight + s0) :
    local_times_to_utc_intervals dayLocalMidnight [(s0, e0)] tz
      = [⟨tz.toUtc (dayLocalMidnight + s0), tz.toUtc (dayLocalMidnight + 86399999)⟩,
         ⟨tz.toUtc (dayLocalMidnight + 86400000),
          tz.toUtc (dayLocalMidnight + e0 + 86400000)⟩] := by
  simp only [local_times_to_utc_intervals, List.flatMap_cons, List.flatMap_nil,
    List.append_nil]
  rw [if_pos h]

/-- Witness instantiating C3_midnight_split on the 22:00-02:00 span. -/
theorem C3_witness :
    local_times_to_utc_intervals 0 [((79200000 : ℤ), (7200000 : ℤ))] ⟨0⟩
      = [⟨Tz.toUtc ⟨0⟩ ((0 : ℤ) + 79200000), Tz.toUtc ⟨0⟩ ((0 : ℤ) + 86399999)⟩,
         ⟨Tz.toUtc ⟨0⟩ ((0 : ℤ) + 86400000), Tz.toUtc ⟨0⟩ ((0 : ℤ) + 7200000 + 86400000)⟩] :=
  C3_midnight_split 0 79200000 7200000 ⟨0⟩ (by decide)

/-- C4: every interval produced by business_intervals_utc lies inside the
query range and is non-degenerate; empty clamped intervals never appear. -/
theorem C4_business_intervals_within_range (startUtc endUtc : ℤ)
    (config : StoreConfig) (iv : Interval)
    (hmem : iv ∈ business_intervals_utc startUtc endUtc config) :
    startUtc ≤ iv.start ∧ iv.stop ≤ endUtc ∧ iv.start < iv.stop := by
  rcases List.mem_flatMap.mp hmem with ⟨day, _, hmem2⟩
  rcases List.mem_filterMap.mp hmem2 with ⟨iv0, _, hclamp⟩
  simp only [Interval.clamp] at hclamp
  split at hclamp
  · exact absurd hclamp (by simp)
  · rename_i hlt
    injection hclamp with h2
    rw [← h2]
    exact ⟨le_max_right _ _, min_le_right _ _, lt_of_not_ge hlt⟩

/-- Witness instantiating C4_business_intervals_within_range on the single
interval produced for a one-day zero-offset range with a 24x7 schedule. -/
theorem C4_witness :
    (0 : ℤ) ≤ (Interval.mk 0 86399000).start
      ∧ (Interval.mk 0 86399000).stop ≤ 86400000
      ∧ (Interval.mk 0 86399000).start < (Interval.mk 0 86399000).stop :=
  C4_business_intervals_within_range 0 86400000 ⟨⟨0⟩, fun _ => []⟩ ⟨0, 86399000⟩
    (by decide)

/-- Unfolding of one maximum step. -/
lemma maxTimestamp_cons (t : ℤ) (rest : List ℤ) :
    maxTimestamp (t :: rest)
      = match maxTimestamp rest with
        | none => some t
        | some m => some (max t m) := rfl

/-- The maximum of an appended timestamp list combines the two maxima. -/
lemma maxTimestamp_append (l1 l2 : List ℤ) :
    maxTimestamp (l1 ++ l2)
      = match maxTimestamp l1, maxTimestamp l2 with
        | none, b => b
        | some a, none => some a
        | some a, some b => some (max a b) := by
  induction l1 with
  | nil => cases h2 : maxTimestamp l2 <;> simp [maxTimestamp, h2]
  | cons t rest ih =>
    rw [List.cons_append, maxTimestamp_cons, ih, maxTimestamp_cons]
    cases h1 : maxTimestamp rest <;> cases h2 : maxTimestamp l2 <;>
      simp [h1, h2, max_assoc]

/-- Interpolating the empty series yields zero for both buckets. -/
lemma interpolate_status_nil (iv : Interval) : interpolate_status [] iv = (0, 0) := rfl

/-- Window accumulation over the empty series stays at zero. -/
lemma windowTotals_nil (w : Interval) (config : StoreConfig) :
    windowTotals [] w config = (0, 0) := by
  have h : ∀ (l : List Interval) (acc : ℤ × ℤ),
      l.foldl (fun acc iv =>
        let r := interpolate_status [] iv
        (acc.1 + r.1, acc.2 + r.2)) acc = acc := by
    intro l
    induction l with
    | nil => intro acc; rfl
    | cons iv rest ih =>
      intro acc
      simp only [List.foldl_cons]
      rw [ih]
      simp [interpolate_status]
  exact h _ _

/-- The metrics of the empty series are all zero. -/
lemma computeMetricsFromSeries_nil (nowUtc : ℤ) (config : StoreConfig) :
    computeMetricsFromSeries [] nowUtc config = ⟨0, 0, 0, 0, 0, 0⟩ := by
  simp only [computeMetricsFromSeries, windowTotals_nil]
  norm_num

/-- Rounding zero gives zero. -/
lemma round2_zero : round2 0 = 0 := by
  have h : ratFloor ((0 : ℚ) * 100) = 0 := by
    norm_num [ratFloor]
  simp only [round2, roundHalfEven, h]
  norm_num

/-- C5: the reference instant is the maximum observation timestamp across ALL
sites, computed once per run; without any observation it falls back to the
supplied real current time and the generated report consists of one all-zero
row per configured store. -/
theorem C5_global_reference_clock :
    (∀ realNowUtc : ℤ, getReferenceNow [] realNowUtc = realNowUtc)
    ∧ (∀ (ts1 ts2 : List ℤ) (T1 T2 realNowUtc : ℤ),
        maxTimestamp ts1 = some T1 → maxTimestamp ts2 = some T2 → T1 < T2 →
        getReferenceNow (ts1 ++ ts2) realNowUtc = T2)
    ∧ (∀ (tzRows : List (String × String)) (bhRows : List BhRow)
        (resolve : String → Option Tz) (defaultTz : Tz) (realNowUtc : ℤ),
        generateReportRows [] tzRows bhRows resolve defaultTz realNowUtc
          = (storeIdsOf [] tzRows bhRows).map
              (fun sid => Row.mk sid 0 0 0 0 0 0)) := by
  refine ⟨fun _ => rfl, ?_, ?_⟩
  · intro ts1 ts2 T1 T2 realNowUtc h1 h2 hlt
    unfold getReferenceNow
    rw [maxTimestamp_append, h1, h2]
    simp [max_eq_right (le_of_lt hlt)]
  · intro tzRows bhRows resolve defaultTz realNowUtc
    unfold generateReportRows loadStoreConfigs
    rw [List.map_map]
    refine List.map_congr_left ?_
    intro sid _
    show makeRow sid (compute_store_metrics (obsForStore [] sid) _ _) = _
    have hobs : obsForStore [] sid = [] := rfl
    rw [hobs]
    have hmet : ∀ (nowUtc : ℤ) (config : StoreConfig),
        compute_store_metrics [] nowUtc config = ⟨0, 0, 0, 0, 0, 0⟩ := by
      intro nowUtc config
      unfold compute_store_metrics
      have hfetch : fetchObservations [] nowUtc = [] := rfl
      rw [hfetch, computeMetricsFromSeries_nil]
    rw [hmet]
    simp [makeRow, round2_zero]

/-- Witness instantiating C5_global_reference_clock: the empty fallback, the
cross-site maximum with maxima 3 < 7, and the all-zero report over one
timezone-only store. -/
theorem C5_witness :
    getReferenceNow [] (42 : ℤ) = 42
      ∧ getReferenceNow ([(3 : ℤ)] ++ [(7 : ℤ)]) 0 = 7
      ∧ generateReportRows [] [("a", "UTC")] [] (fun _ => some ⟨0⟩) ⟨-21600000⟩ 0
          = (storeIdsOf [] [("a", "UTC")] []).map
              (fun sid => Row.mk sid 0 0 0 0 0 0) :=
  ⟨C5_global_reference_clock.1 42,
   C5_global_reference_clock.2.1 [(3 : ℤ)] [(7 : ℤ)] 3 7 0 (by decide) (by decide)
     (by decide),
   C5_global_reference_clock.2.2 [("a", "UTC")] [] (fun _ => some ⟨0⟩)
     ⟨-21600000⟩ 0⟩

/-- Accumulating interpolation pairs with a fold equals summing the mapped
components. -/
lemma foldl_pair_sum (g : Interval → ℤ × ℤ) : ∀ (l : List Interval) (acc : ℤ × ℤ),
    l.foldl (fun acc iv => (acc.1 + (g iv).1, acc.2 + (g iv).2)) acc
      = (acc.1 + (l.map (fun iv => (g iv).1)).sum,
         acc.2 + (l.map (fun iv => (g iv).2)).sum) := by
  intro l
  induction l with
  | nil => intro acc; simp
  | cons iv rest ih =>
    intro acc
    simp only [List.foldl_cons, List.map_cons, List.sum_cons]
    rw [ih]
    simp [add_assoc]

/-- C6 counterexample: with an observation eight days before now and another
twenty minutes before now, the metrics computed by the code (which fetches
only observations from two hours before the week window onwards) differ from
the metrics computed over the site's entire observation series: the old
"active" sample falls outside the fetch bound, so the carried status of
every week business interval flips. -/
theorem C6_counterexample_fetch_bound :
    compute_store_metrics [((0 : ℤ), "active"), (690000000, "inactive")]
        691200000 ⟨⟨0⟩, fun _ => []⟩
      ≠ computeMetricsFromSeries [((0 : ℤ), "active"), (690000000, "inactive")]
        691200000 ⟨⟨0⟩, fun _ => []⟩ := by
  intro h
  have h2 := congrArg Metrics.uptime_last_week_hr h
  have e1 : (compute_store_metrics [((0 : ℤ), "active"), (690000000, "inactive")]
        691200000 ⟨⟨0⟩, fun _ => []⟩).uptime_last_week_hr
      = (((windowTotals
            (fetchObservations [((0 : ℤ), "active"), (690000000, "inactive")] 691200000)
            ⟨691200000 - 604800000, 691200000⟩ ⟨⟨0⟩, fun _ => []⟩).1 : ℤ) : ℚ)
          / 1000 / 3600 := rfl
  have e2 : (computeMetricsFromSeries [((0 : ℤ), "active"), (690000000, "inactive")]
        691200000 ⟨⟨0⟩, fun _ => []⟩).uptime_last_week_hr
      = (((windowTotals [((0 : ℤ), "active"), (690000000, "inactive")]
            ⟨691200000 - 604800000, 691200000⟩ ⟨⟨0⟩, fun _ => []⟩).1 : ℤ) : ℚ)
          / 1000 / 3600 := rfl
  have hL : (windowTotals
        (fetchObservations [((0 : ℤ), "active"), (690000000, "inactive")] 691200000)
        ⟨691200000 - 604800000, 691200000⟩ ⟨⟨0⟩, fun _ => []⟩).1 = 0 := by decide
  have hR : (windowTotals [((0 : ℤ), "active"), (690000000, "inactive")]
        ⟨691200000 - 604800000, 691200000⟩ ⟨⟨0⟩, fun _ => []⟩).1 = 603594000 := by
    decide
  rw [e1, e2, hL, hR] at h2
  norm_num at h2

/-- C6 (amended): every business interval of a window receives the very same
observation series, with no per-interval refiltering - the window totals are
plain sums of per-interval interpolations of one shared series - but that
shared series is the fetched restriction of the site's series to
[now - 7d - 2h, now + 2h], not the entire series. -/
theorem C6_same_series_per_interval (observations : List (ℤ × String))
    (nowUtc : ℤ) (config : StoreConfig) :
    compute_store_metrics observations nowUtc config
        = computeMetricsFromSeries (fetchObservations observations nowUtc) nowUtc config
      ∧ ∀ w : Interval,
        windowTotals observations w config
          = (((business_intervals_utc w.start w.stop config).map
                (fun iv => (interpolate_status observations iv).1)).sum,
             ((business_intervals_utc w.start w.stop config).map
                (fun iv => (interpolate_status observations iv).2)).sum) := by
  refine ⟨rfl, ?_⟩
  intro w
  have h := foldl_pair_sum (fun iv => interpolate_status observations iv)
    (business_intervals_utc w.start w.stop config) (0, 0)
  simp only [zero_add] at h
  exact h

/-- Rounding an integer-valued rational is the identity. -/
lemma roundHalfEven_intCast (n : ℤ) : roundHalfEven (n : ℚ) = n := by
  have hf : ratFloor (n : ℚ) = n := by
    simp [ratFloor, Rat.num_intCast, Rat.den_intCast]
  simp only [roundHalfEven, hf]
  norm_num

/-- round2 is the identity on integer values. -/
lemma round2_intCast (n : ℤ) : round2 (n : ℚ) = n := by
  unfold round2
  have h : (n : ℚ) * 100 = ((n * 100 : ℤ) : ℚ) := by push_cast; ring
  rw [h, roundHalfEven_intCast]
  push_cast
  field_simp

/-- C7: the reported row divides the raw millisecond totals into minutes for
the hour window and hours for the day and week windows, applying the
two-decimal rounding only at this boundary; raw totals of 1800 seconds
convert to 30.00 minutes and raw totals of 43200 seconds to 12.00 hours. -/
theorem C7_units_and_rounding :
    (∀ (observations : List (ℤ × String)) (nowUtc : ℤ) (config : StoreConfig)
      (sid : String),
      makeRow sid (compute_store_metrics observations nowUtc config)
        = { store_id := sid
            uptime_last_hour := round2
              (((windowTotals (fetchObservations observations nowUtc)
                  ⟨nowUtc - 3600000, nowUtc⟩ config).1 : ℚ) / 1000 / 60)
            uptime_last_day := round2
              (((windowTotals (fetchObservations observations nowUtc)
                  ⟨nowUtc - 86400000, nowUtc⟩ config).1 : ℚ) / 1000 / 3600)
            uptime_last_week := round2
              (((windowTotals (fetchObservations observations nowUtc)
                  ⟨nowUtc - 604800000, nowUtc⟩ config).1 : ℚ) / 1000 / 3600)
            downtime_last_hour := round2
              (((windowTotals (fetchObservations observations nowUtc)
                  ⟨nowUtc - 3600000, nowUtc⟩ config).2 : ℚ) / 1000 / 60)
            downtime_last_day := round2
              (((windowTotals (fetchObservations observations nowUtc)
                  ⟨nowUtc - 86400000, nowUtc⟩ config).2 : ℚ) / 1000 / 3600)
            downtime_last_week := round2
              (((windowTotals (fetchObservations observations nowUtc)
                  ⟨nowUtc - 604800000, nowUtc⟩ config).2 : ℚ) / 1000 / 3600) })
    ∧ round2 ((1800000 : ℚ) / 1000 / 60) = 30
    ∧ round2 ((43200000 : ℚ) / 1000 / 3600) = 12 := by
  refine ⟨fun _ _ _ _ => rfl, ?_, ?_⟩
  · have h : (1800000 : ℚ) / 1000 / 60 = ((30 : ℤ) : ℚ) := by norm_num
    rw [h, round2_intCast]
    norm_num
  · have h : (43200000 : ℚ) / 1000 / 3600 = ((12 : ℤ) : ℚ) := by norm_num
    rw [h, round2_intCast]
    norm_num

/-- Duration adds over concatenation. -/
lemma durationMs_append (l1 l2 : List Interval) :
    durationMs (l1 ++ l2) = durationMs l1 + durationMs l2 := by
  simp [durationMs]

/-- Duration of a flat map is the sum of the per-element durations. -/
lemma durationMs_flatMap (f : ℤ → List Interval) (l : List ℤ) :
    durationMs (l.flatMap f) = (l.map (fun x => durationMs (f x))).sum := by
  induction l with
  | nil => simp [durationMs]
  | cons x rest ih => simp only [List.flatMap_cons, List.map_cons, List.sum_cons,
      durationMs_append, ih]

/-- Summing the per-day contribution pattern of an N-day range: every day but
the last contributes, the last contributes nothing. -/
lemma sum_ite_range_succ (M : ℕ) (c : ℤ) :
    ((List.range (M + 1)).map (fun i => if i < M then c else 0)).sum = (M : ℤ) * c := by
  rw [List.range_succ, List.map_append, List.sum_append]
  have h1 : (List.range M).map (fun i => if i < M then c else 0)
      = (List.range M).map (fun _ => c) :=
    List.map_congr_left (fun i hi => if_pos (List.mem_range.mp hi))
  rw [h1, List.map_const', List.sum_replicate, List.length_range]
  simp [nsmul_eq_mul]

/-- C8: over a store with an empty weekday mapping (24x7 schedule), a
zero-offset-aligned range of exactly N whole local days expands to intervals
of combined duration N * 86399 seconds: each day contributes the substituted
all-day span 00:00:00-23:59:59, one second short of a full day. -/
theorem C8_allday_range_duration (off S : ℤ) (N : ℕ)
    (hmid : ∃ k : ℤ, S + off = 86400000 * k) :
    durationMs (business_intervals_utc S (S + (N : ℤ) * 86400000) ⟨⟨off⟩, fun _ => []⟩)
      = (N : ℤ) * 86399000 := by
  obtain ⟨k, hk⟩ := hmid
  have hNge : (0 : ℤ) ≤ (N : ℤ) := Int.natCast_nonneg N
  have hdr : daterange_days S (S + (N : ℤ) * 86400000) ⟨off⟩
      = (List.range (N + 1)).map (fun i : ℕ => (S + off) + (i : ℤ) * 86400000) := by
    simp only [daterange_days, Tz.toLocal, floorLocalMidnight]
    have h1 : 86400000 * Int.fdiv (S + off) 86400000 = S + off := by
      rw [hk, Int.mul_fdiv_cancel_left _ (by norm_num)]
    rw [h1]
    have h2 : Int.fdiv (S + (N : ℤ) * 86400000 + off - (S + off)) 86400000 = (N : ℤ) := by
      have h3 : S + (N : ℤ) * 86400000 + off - (S + off) = (N : ℤ) * 86400000 := by ring
      rw [h3, Int.mul_fdiv_cancel _ (by norm_num)]
    rw [h2, if_pos (by omega), Int.toNat_natCast]
  have hbi : business_intervals_utc S (S + (N : ℤ) * 86400000) ⟨⟨off⟩, fun _ => []⟩
      = ((List.range (N + 1)).map (fun i : ℕ => (S + off) + (i : ℤ) * 86400000)).flatMap
          (fun m => (local_times_to_utc_intervals m [((0 : ℤ), (86399000 : ℤ))]
              ⟨off⟩).filterMap
            (fun iv => iv.clamp S (S + (N : ℤ) * 86400000))) := by
    unfold business_intervals_utc
    rw [hdr]
    have hfun : (fun dayMidnightLocal =>
        (local_times_to_utc_intervals dayMidnightLocal
          (if (StoreConfig.mk ⟨off⟩ (fun _ => [])).business_hours_by_dow
              (weekdayOf dayMidnightLocal) = []
            then [((0 : ℤ), (86399000 : ℤ))]
            else (StoreConfig.mk ⟨off⟩ (fun _ => [])).business_hours_by_dow
              (weekdayOf dayMidnightLocal))
          (StoreConfig.mk ⟨off⟩ (fun _ => [])).timezone).filterMap
          (fun iv => iv.clamp S (S + (N : ℤ) * 86400000)))
        = (fun m => (local_times_to_utc_intervals m [((0 : ℤ), (86399000 : ℤ))]
            ⟨off⟩).filterMap
          (fun iv => iv.clamp S (S + (N : ℤ) * 86400000))) := by
      funext m
      rfl
    exact congrArg _ hfun
  rw [hbi, durationMs_flatMap, List.map_map]
  have hcontrib : ∀ i ∈ List.range (N + 1),
      ((fun m => durationMs ((local_times_to_utc_intervals m
            [((0 : ℤ), (86399000 : ℤ))] ⟨off⟩).filterMap
          (fun iv => iv.clamp S (S + (N : ℤ) * 86400000))))
        ∘ (fun i : ℕ => (S + off) + (i : ℤ) * 86400000)) i
        = if i < N then (86399000 : ℤ) else 0 := by
    intro i hi
    have hiN : i ≤ N := by
      have := List.mem_range.mp hi
      omega
    have hige : (0 : ℤ) ≤ (i : ℤ) := Int.natCast_nonneg i
    have hlocal : local_times_to_utc_intervals ((S + off) + (i : ℤ) * 86400000)
        [((0 : ℤ), (86399000 : ℤ))] ⟨off⟩
        = [⟨S + (i : ℤ) * 86400000, S + (i : ℤ) * 86400000 + 86399000⟩] := by
      simp only [local_times_to_utc_intervals, List.flatMap_cons, List.flatMap_nil,
        List.append_nil, Tz.toUtc]
      rw [if_neg (by omega)]
      refine congrArg (fun x => [x]) ?_
      simp only [Interval.mk.injEq]
      constructor <;> ring
    show durationMs ((local_times_to_utc_intervals ((S + off) + (i : ℤ) * 86400000)
        [((0 : ℤ), (86399000 : ℤ))] ⟨off⟩).filterMap
      (fun iv => iv.clamp S (S + (N : ℤ) * 86400000))) = _
    rw [hlocal]
    by_cases hlt : i < N
    · have hcast : (i : ℤ) + 1 ≤ (N : ℤ) := by exact_mod_cast hlt
      have hclamp : (Interval.mk (S + (i : ℤ) * 86400000)
            (S + (i : ℤ) * 86400000 + 86399000)).clamp S (S + (N : ℤ) * 86400000)
          = some ⟨S + (i : ℤ) * 86400000, S + (i : ℤ) * 86400000 + 86399000⟩ := by
        simp only [Interval.clamp]
        rw [max_eq_left (by omega), min_eq_left (by omega), if_neg (by omega)]
      rw [if_pos hlt]
      simp [List.filterMap_cons, hclamp, durationMs]
    · have hieq : i = N := by omega
      subst hieq
      have hclamp : (Interval.mk (S + (i : ℤ) * 86400000)
            (S + (i : ℤ) * 86400000 + 86399000)).clamp S (S + (i : ℤ) * 86400000)
          = none := by
        simp only [Interval.clamp]
        rw [max_eq_left (by omega), min_eq_right (by omega), if_pos (by omega)]
      rw [if_neg hlt]
      simp [List.filterMap_cons, hclamp, durationMs]
  rw [List.map_congr_left hcontrib, sum_ite_range_succ]

/-- Witness instantiating C8_allday_range_duration on a one-day aligned range
in the zero-offset timezone. -/
theorem C8_witness :
    durationMs (business_intervals_utc 0 ((0 : ℤ) + ((1 : ℕ) : ℤ) * 86400000)
        ⟨⟨0⟩, fun _ => []⟩)
      = ((1 : ℕ) : ℤ) * 86399000 :=
  C8_allday_range_duration 0 0 1 ⟨0, by decide⟩

/-- The timezone fold resolves to the last table row for the queried store,
or leaves the accumulator untouched when the store has no row. -/
lemma buildTzMap_foldl (resolve : String → Option Tz) (defaultTz : Tz) :
    ∀ (rows : List (String × String)) (m : String → Option Tz) (sid : String),
      rows.foldl
        (fun m row => fun q =>
          if q = row.1 then some ((resolve row.2).getD defaultTz) else m q) m sid
      = match (rows.filter (fun r => decide (r.1 = sid))).getLast? with
        | some row => some ((resolve row.2).getD defaultTz)
        | none => m sid := by
  intro rows
  induction rows with
  | nil => intro m sid; rfl
  | cons row rest ih =>
    intro m sid
    rw [List.foldl_cons, ih]
    by_cases h : row.1 = sid
    · have hf : (row :: rest).filter (fun r => decide (r.1 = sid))
          = row :: rest.filter (fun r => decide (r.1 = sid)) := by
        simp [List.filter_cons, h]
      rw [hf, List.getLast?_cons]
      cases hq : (rest.filter (fun r => decide (r.1 = sid))).getLast? <;>
        simp [hq, if_pos h.symm]
    · have hf : (row :: rest).filter (fun r => decide (r.1 = sid))
          = rest.filter (fun r => decide (r.1 = sid)) := by
        simp [List.filter_cons, h]
      rw [hf]
      have hne : ¬ sid = row.1 := fun hh => h hh.symm
      cases hq : (rest.filter (fun r => decide (r.1 = sid))).getLast? with
      | none => simp [hq, if_neg hne]
      | some r => simp [hq]

/-- Characterisation of the timezone dictionary built by load_store_configs. -/
lemma buildTzMap_eq_filter_last (resolve : String → Option Tz) (defaultTz : Tz)
    (tzRows : List (String × String)) (sid : String) :
    buildTzMap resolve defaultTz tzRows sid
      = ((tzRows.filter (fun r => decide (r.1 = sid))).getLast?).map
          (fun row => (resolve row.2).getD defaultTz) := by
  unfold buildTzMap
  rw [buildTzMap_foldl]
  cases hq : (tzRows.filter (fun r => decide (r.1 = sid))).getLast? <;> simp [hq]

/-- A store absent from the business-hours table keeps the accumulator value
through the business-hours fold. -/
lemma buildBhMap_foldl_not_mem :
    ∀ (bhRows : List BhRow) (m : String → ℤ → List (ℤ × ℤ)) (sid : String) (d : ℤ),
      sid ∉ bhRows.map (fun r => r.store_id) →
      bhRows.foldl
        (fun m row => fun s dow =>
          if s = row.store_id ∧ dow = row.day_of_week then
            m s dow ++ [(row.start_time_local, row.end_time_local)]
          else m s dow) m sid d
      = m sid d := by
  intro bhRows
  induction bhRows with
  | nil => intro m sid d _; rfl
  | cons row rest ih =>
    intro m sid d hnot
    have h1 : sid ≠ row.store_id := by
      intro hh
      exact hnot (by simp [hh])
    have h2 : sid ∉ rest.map (fun r => r.store_id) := by
      intro hh
      exact hnot (by simp [hh])
    rw [List.foldl_cons, ih _ sid d h2]
    simp [h1]

/-- Filtering mapped rows by store id counts the underlying ids. -/
lemma filter_map_store_id (g : String → Row) (sid : String)
    (hsid : ∀ x, (g x).store_id = x) :
    ∀ l : List String,
      ((l.map g).filter (fun r => decide (r.store_id = sid))).length
        = (l.filter (fun x => decide (x = sid))).length := by
  intro l
  induction l with
  | nil => rfl
  | cons x rest ih =>
    simp only [List.map_cons, List.filter_cons, hsid x]
    by_cases h : x = sid <;> simp [h, ih]

/-- In a duplicate-free list a present element is matched exactly once. -/
lemma count_filter_nodup (sid : String) :
    ∀ l : List String, l.Nodup → sid ∈ l →
      (l.filter (fun x => decide (x = sid))).length = 1 := by
  intro l
  induction l with
  | nil => intro _ h; cases h
  | cons x rest ih =>
    intro hnd hmem
    by_cases hx : x = sid
    · have hrest : rest.filter (fun y => decide (y = sid)) = [] := by
        refine List.filter_eq_nil_iff.mpr ?_
        intro y hy
        simp only [decide_eq_true_eq]
        intro hysid
        apply (List.nodup_cons.mp hnd).1
        rw [hx, ← hysid]
        exact hy
      simp [List.filter_cons, hx, hrest]
    · have hmem2 : sid ∈ rest := by
        rcases List.mem_cons.mp hmem with h | h
        · exact absurd h.symm hx
        · exact h
      simp [List.filter_cons, hx, ih (List.nodup_cons.mp hnd).2 hmem2]

/-- C9: every store with an observation, timezone or business-hour record
gets exactly one report row; load_store_configs resolves each store to a
configuration whose timezone falls back to the configured default when the
store has no timezone row or its (last) timezone name does not resolve, and
whose weekday mapping is empty when the store has no business-hour rows. -/
theorem C9_eligibility_and_defaults (obs : List ObsRow)
    (tzRows : List (String × String)) (bhRows : List BhRow)
    (resolve : String → Option Tz) (defaultTz : Tz) (realNowUtc : ℤ)
    (sid : String) :
    ((sid ∈ obs.map (fun r => r.store_id) ∨ sid ∈ tzRows.map (fun r => r.1)
        ∨ sid ∈ bhRows.map (fun r => r.store_id)) →
      ((generateReportRows obs tzRows bhRows resolve defaultTz realNowUtc).filter
        (fun r => decide (r.store_id = sid))).length = 1)
    ∧ loadStoreConfigs obs tzRows bhRows resolve defaultTz
        = (storeIdsOf obs tzRows bhRows).map (fun s =>
            (s, { timezone := (buildTzMap resolve defaultTz tzRows s).getD defaultTz
                  business_hours_by_dow := fun d => buildBhMap bhRows s d }))
    ∧ ((tzRows.filter (fun r => decide (r.1 = sid))).getLast? = none →
        (buildTzMap resolve defaultTz tzRows sid).getD defaultTz = defaultTz)
    ∧ (∀ row, (tzRows.filter (fun r => decide (r.1 = sid))).getLast? = some row →
        resolve row.2 = none →
        (buildTzMap resolve defaultTz tzRows sid).getD defaultTz = defaultTz)
    ∧ (sid ∉ bhRows.map (fun r => r.store_id) →
        ∀ d, buildBhMap bhRows sid d = []) := by
  refine ⟨?_, rfl, ?_, ?_, ?_⟩
  · intro hmem
    have hmem2 : sid ∈ storeIdsOf obs tzRows bhRows := by
      rw [storeIdsOf, List.mem_dedup]
      simp only [List.mem_append]
      tauto
    simp only [generateReportRows, loadStoreConfigs]
    rw [List.map_map]
    rw [filter_map_store_id _ sid (fun x => rfl) (storeIdsOf obs tzRows bhRows)]
    exact count_filter_nodup sid _ (List.nodup_dedup _) hmem2
  · intro hnone
    rw [buildTzMap_eq_filter_last, hnone]
    rfl
  · intro row hsome hfail
    rw [buildTzMap_eq_filter_last, hsome]
    simp [hfail]
  · intro hnot d
    unfold buildBhMap
    rw [buildBhMap_foldl_not_mem bhRows _ sid d hnot]

/-- Witness instantiating C9_eligibility_and_defaults: a store known only to
the timezone table with an unresolvable name gets one row and the default
timezone; a store with no timezone row also defaults; a store with no
business-hour rows has an empty weekday mapping. -/
theorem C9_witness :
    ((generateReportRows [] [("b", "XXX")] [] (fun _ => none) ⟨-21600000⟩ 0).filter
        (fun r => decide (r.store_id = "b"))).length = 1
    ∧ (buildTzMap (fun _ => none) ⟨-21600000⟩ [("b", "XXX")] "c").getD ⟨-21600000⟩
        = ⟨-21600000⟩
    ∧ (buildTzMap (fun _ => none) ⟨-21600000⟩ [("b", "XXX")] "b").getD ⟨-21600000⟩
        = ⟨-21600000⟩
    ∧ buildBhMap [] "b" 0 = [] :=
  ⟨(C9_eligibility_and_defaults [] [("b", "XXX")] [] (fun _ => none)
      ⟨-21600000⟩ 0 "b").1 (by decide),
   (C9_eligibility_and_defaults [] [("b", "XXX")] [] (fun _ => none)
      ⟨-21600000⟩ 0 "c").2.2.1 (by decide),
   (C9_eligibility_and_defaults [] [("b", "XXX")] [] (fun _ => none)
      ⟨-21600000⟩ 0 "b").2.2.2.1 ("b", "XXX") (by decide) rfl,
   (C9_eligibility_and_defaults [] [("b", "XXX")] [] (fun _ => none)
      ⟨-21600000⟩ 0 "b").2.2.2.2 (by decide) 0⟩

end StoreMonitoring
